import Mathlib

/-!
Verification of the document assembly engine of the Gemini book generator
(`main.py`): the outline parser `parse_toc`, the cached retrying generator
`generate_with_gemini` / `generate_section_content`, and the multi-pass
PDF creation `create_pdf` (content layout with page map, ToC rendering,
merge, temp-file cleanup).

The Python code is shallowly embedded: strings are `String`/`List Char`,
`OrderedDict` is an association list with insert-or-overwrite semantics,
and the external collaborators (Gemini API, pickle cache storage, the FPDF
rendering backend, the filesystem) are modelled as explicit oracle
parameters recording only the outcomes the code branches on.

Python `\s`, `\d`, `str.strip`/`rstrip` are modelled over ASCII whitespace
and digits (the generated outline text the program consumes is ASCII).
-/

set_option autoImplicit false

namespace BookGen

/-! ## Python string primitives -/

/-- ASCII model of Python whitespace (`\s`, `str.strip`). -/
def pyIsSpace (c : Char) : Bool :=
  c = ' ' || c = '\t' || c = '\n' || c = '\r' || c = '\x0b' || c = '\x0c'

/-- ASCII model of `\d`. -/
def isDigitCh (c : Char) : Bool :=
  '0' ≤ c && c ≤ '9'

/-- `str.lstrip()` on a character list. -/
def lstripL (l : List Char) : List Char :=
  l.dropWhile pyIsSpace

/-- `str.rstrip()` on a character list. -/
def rstripL (l : List Char) : List Char :=
  (l.reverse.dropWhile pyIsSpace).reverse

/-- `str.strip()` on a character list. -/
def stripL (l : List Char) : List Char :=
  rstripL (lstripL l)

/-- `str.split('\n')` on a character list. -/
def splitOnNl : List Char → List (List Char)
  | [] => [[]]
  | c :: rest =>
    match splitOnNl rest with
    | [] => [[]]
    | h :: t => if c = '\n' then [] :: h :: t else (c :: h) :: t

/-! ## The two `parse_toc` regexes

`chapter_pattern = ^\s*(\d+)\.\s+(.+)` and
`section_pattern = ^\s+(\d+\.\d+)\.\s+(.+)`, via `re.match` (anchored at
the start of the line).  Since whitespace, digits and `'.'` are pairwise
disjoint character classes, greedy maximal munch is equivalent to the
backtracking regex semantics everywhere except for the final `\s+(.+)`
pair: when the line ends in whitespace the regex backtracks and lets
`(.+)` capture the final whitespace character.  Both functions return the
text captured by the final `(.+)` group (the title; the numeric groups
are only printed by the source). -/

/-- Match `^\s*(\d+)\.\s+(.+)` against a line, returning the `(.+)` capture. -/
def chapterMatch (line : List Char) : Option (List Char) :=
  let r1 := line.dropWhile pyIsSpace
  let digits := r1.takeWhile isDigitCh
  let r2 := r1.dropWhile isDigitCh
  if digits.isEmpty then none
  else
    match r2 with
    | '.' :: r3 =>
      let ws := r3.takeWhile pyIsSpace
      let title := r3.dropWhile pyIsSpace
      if ws.isEmpty then none
      else if title.isEmpty then
        if 2 ≤ ws.length then some [ws.getLastD ' '] else none
      else some title
    | _ => none

/-- Match `^\s+(\d+\.\d+)\.\s+(.+)` against a line, returning the `(.+)` capture. -/
def sectionMatch (line : List Char) : Option (List Char) :=
  let ws0 := line.takeWhile pyIsSpace
  let r1 := line.dropWhile pyIsSpace
  if ws0.isEmpty then none
  else
    let d1 := r1.takeWhile isDigitCh
    let r2 := r1.dropWhile isDigitCh
    if d1.isEmpty then none
    else
      match r2 with
      | '.' :: r3 =>
        let d2 := r3.takeWhile isDigitCh
        let r4 := r3.dropWhile isDigitCh
        if d2.isEmpty then none
        else
          match r4 with
          | '.' :: r5 =>
            let ws := r5.takeWhile pyIsSpace
            let title := r5.dropWhile pyIsSpace
            if ws.isEmpty then none
            else if title.isEmpty then
              if 2 ≤ ws.length then some [ws.getLastD ' '] else none
            else some title
          | _ => none
      | _ => none

/-! ## `OrderedDict {chapter_title: [section_title, ...]}` -/

/-- The parsed table of contents: an insertion-ordered map from chapter
titles to their ordered section lists (`collections.OrderedDict`). -/
abbrev Toc := List (String × List String)

/-- `d.any (·.1 = k)`: Python `k in d`. -/
def tocHasKey (d : Toc) (k : String) : Bool :=
  d.any (fun e => decide (e.1 = k))

/-- `parsed_toc[k] = []`: overwrite in place when the key exists (keeping
its original position, as `OrderedDict` assignment does), else append. -/
def tocSetEmpty (d : Toc) (k : String) : Toc :=
  if tocHasKey d k then d.map (fun e => if e.1 = k then (e.1, []) else e)
  else d ++ [(k, [])]

/-- `parsed_toc[k].append(v)`. -/
def tocAppendSec (d : Toc) (k : String) (v : String) : Toc :=
  d.map (fun e => if e.1 = k then (e.1, e.2 ++ [v]) else e)

/-- Python dict lookup `d[k]` as an option (first entry with the key;
keys are unique by construction of the update operations). -/
def tocLookup : Toc → String → Option (List String)
  | [], _ => none
  | e :: es, k => if e.1 = k then some e.2 else tocLookup es k

/-- Helper for `dedupFirst`: drop elements already seen, keeping first
occurrences in order. -/
def dedupFirstAux (seen : List String) : List String → List String
  | [] => []
  | x :: xs => if x ∈ seen then dedupFirstAux seen xs else x :: dedupFirstAux (x :: seen) xs

/-- The list with later duplicates dropped: each element keeps the
position of its first occurrence. -/
def dedupFirst (l : List String) : List String := dedupFirstAux [] l

/-! ## `parse_toc` -/

/-- One iteration of the `for line in lines` loop of `parse_toc`.
State: `(parsed_toc, current_chapter_title)`. -/
def parseTocStep (st : Toc × Option String) (rawLine : List Char) : Toc × Option String :=
  let line := rstripL rawLine
  match chapterMatch line with
  | some titleRaw =>
    let title := stripL titleRaw
    if title.isEmpty then st
    else (tocSetEmpty st.1 (String.mk title), some (String.mk title))
  | none =>
    match sectionMatch line with
    | some titleRaw =>
      match st.2 with
      | some cur =>
        let title := stripL titleRaw
        if title.isEmpty then st
        else if tocHasKey st.1 cur then (tocAppendSec st.1 cur (String.mk title), st.2)
        else st
      | none => st
    | none => st

/-- The line list `toc_text.strip().split('\n')`. -/
def tocLines (text : String) : List (List Char) :=
  splitOnNl (stripL text.data)

/-- The `parsed_toc` dictionary accumulated by the loop of `parse_toc`. -/
def parsedChapters (text : String) : Toc :=
  ((tocLines text).foldl parseTocStep ([], none)).1

/-- Total section count `sum(len(s) for s in parsed_toc.values())`. -/
def tocTotalSections (d : Toc) : Nat :=
  (d.map (fun e => e.2.length)).sum

/-- `parse_toc(toc_text)`: parses a two-level ToC into an ordered
chapter-to-sections map, `none` on failure. -/
def parse_toc (toc_text : String) : Option Toc :=
  if toc_text = "" then none
  else
    let parsed := parsedChapters toc_text
    if parsed.isEmpty then none
    else
      let total := tocTotalSections parsed
      if (parsed.any (fun e => e.2.isEmpty)) ∧ total = 0 ∧ 0 < parsed.length then none
      else some parsed

/-! ### Recognized chapter and section lines

`chLine l` is the chapter title the parser admits from line `l` (`none`
when the line is not accepted as a chapter line), and `secLine l` the
section title it would admit given some current chapter.  `secLine`
carries the `elif` guard of the source: a line handled by the chapter
branch is never treated as a section line. -/

/-- The chapter title recognized on a raw line, if any. -/
def chLine (rawLine : List Char) : Option String :=
  match chapterMatch (rstripL rawLine) with
  | some titleRaw =>
    let title := stripL titleRaw
    if title.isEmpty then none else some (String.mk title)
  | none => none

/-- The section title recognized on a raw line, if any. -/
def secLine (rawLine : List Char) : Option String :=
  match chapterMatch (rstripL rawLine) with
  | some _ => none
  | none =>
    match sectionMatch (rstripL rawLine) with
    | some titleRaw =>
      let title := stripL titleRaw
      if title.isEmpty then none else some (String.mk title)
    | none => none

/-- Number of chapter lines recognized across the whole input. -/
def recognizedChapterCount (text : String) : Nat :=
  ((tocLines text).filterMap chLine).length

/-! ## The cache fingerprint

`hashlib.sha256(prompt_text.encode('utf-8')).hexdigest()` — SHA-256
(FIPS 180-4) over the UTF-8 bytes of the prompt, as a lowercase hex
string.  Bytes and 32-bit words are `Nat` with explicit reduction
modulo `2^32`. -/

/-- UTF-8 encoding of a single character (code point) as bytes. -/
def utf8Char (c : Char) : List Nat :=
  let n := c.toNat
  if n < 0x80 then [n]
  else if n < 0x800 then
    [0xC0 ||| (n >>> 6), 0x80 ||| (n &&& 0x3F)]
  else if n < 0x10000 then
    [0xE0 ||| (n >>> 12), 0x80 ||| ((n >>> 6) &&& 0x3F), 0x80 ||| (n &&& 0x3F)]
  else
    [0xF0 ||| (n >>> 18), 0x80 ||| ((n >>> 12) &&& 0x3F),
     0x80 ||| ((n >>> 6) &&& 0x3F), 0x80 ||| (n &&& 0x3F)]

/-- `s.encode('utf-8')`. -/
def utf8Bytes (s : String) : List Nat :=
  (s.data.map utf8Char).flatten

/-- Addition modulo `2^32`. -/
def add32 (a b : Nat) : Nat := (a + b) % 2 ^ 32

/-- Right rotation of a 32-bit word. -/
def rotr32 (x n : Nat) : Nat := ((x >>> n) ||| (x <<< (32 - n))) % 2 ^ 32

/-- Bitwise complement of a 32-bit word. -/
def not32 (x : Nat) : Nat := x ^^^ (2 ^ 32 - 1)

def sha256Ch (x y z : Nat) : Nat := (x &&& y) ^^^ (not32 x &&& z)

def sha256Maj (x y z : Nat) : Nat := (x &&& y) ^^^ (x &&& z) ^^^ (y &&& z)

def sha256S0 (x : Nat) : Nat := rotr32 x 2 ^^^ rotr32 x 13 ^^^ rotr32 x 22

def sha256S1 (x : Nat) : Nat := rotr32 x 6 ^^^ rotr32 x 11 ^^^ rotr32 x 25

def sha256s0 (x : Nat) : Nat := rotr32 x 7 ^^^ rotr32 x 18 ^^^ (x >>> 3)

def sha256s1 (x : Nat) : Nat := rotr32 x 17 ^^^ rotr32 x 19 ^^^ (x >>> 10)

/-- The 64 SHA-256 round constants (FIPS 180-4, in decimal). -/
def sha256K : List Nat :=
  [1116352408, 1899447441, 3049323471, 3921009573, 961987163, 1508970993,
   2453635748, 2870763221, 3624381080, 310598401, 607225278, 1426881987,
   1925078388, 2162078206, 2614888103, 3248222580, 3835390401, 4022224774,
   264347078, 604807628, 770255983, 1249150122, 1555081692, 1996064986,
   2554220882, 2821834349, 2952996808, 3210313671, 3336571891, 3584528711,
   113926993, 338241895, 666307205, 773529912, 1294757372, 1396182291,
   1695183700, 1986661051, 2177026350, 2456956037, 2730485921, 2820302411,
   3259730800, 3345764771, 3516065817, 3600352804, 4094571909, 275423344,
   430227734, 506948616, 659060556, 883997877, 958139571, 1322822218,
   1537002063, 1747873779, 1955562222, 2024104815, 2227730452, 2361852424,
   2428436474, 2756734187, 3204031479, 3329325298]

/-- The SHA-256 initial hash value (FIPS 180-4, in decimal). -/
def sha256H0 : List Nat :=
  [1779033703, 3144134277, 1013904242, 2773480762,
   1359893119, 2600822924, 528734635, 1541459225]

/-- Big-endian bytes (`n` of them) of a number. -/
def beBytes : Nat → Nat → List Nat
  | 0, _ => []
  | k + 1, v => beBytes k (v / 256) ++ [v % 256]

/-- Group big-endian bytes into 32-bit words. -/
def bytesToWords : List Nat → List Nat
  | b0 :: b1 :: b2 :: b3 :: rest =>
    (((b0 * 256 + b1) * 256 + b2) * 256 + b3) :: bytesToWords rest
  | _ => []

/-- SHA-256 padding: append `0x80`, zeros, and the 64-bit bit length. -/
def sha256Pad (msg : List Nat) : List Nat :=
  let L := msg.length
  msg ++ [0x80] ++ List.replicate ((64 - (L + 9) % 64) % 64) 0 ++ beBytes 8 (L * 8)

/-- Split into 64-byte blocks. -/
def chunks64 (l : List Nat) : List (List Nat) :=
  if l.isEmpty then [] else l.take 64 :: chunks64 (l.drop 64)
termination_by l.length
decreasing_by
  simp only [List.length_drop]
  cases l with
  | nil => simp [List.isEmpty] at *
  | cons a t => simp; omega

/-- Extend a message schedule array by one word. -/
def sha256Extend (w : Array Nat) (_ : Nat) : Array Nat :=
  let n := w.size
  w.push (add32 (add32 (sha256s1 (w.getD (n - 2) 0)) (w.getD (n - 7) 0))
               (add32 (sha256s0 (w.getD (n - 15) 0)) (w.getD (n - 16) 0)))

/-- One round of the SHA-256 compression loop on the working variables. -/
def sha256Round (w : Array Nat) (st : Nat × Nat × Nat × Nat × Nat × Nat × Nat × Nat)
    (i : Nat) : Nat × Nat × Nat × Nat × Nat × Nat × Nat × Nat :=
  let (a, b, c, d, e, f, g, h) := st
  let t1 := add32 h (add32 (sha256S1 e) (add32 (sha256Ch e f g)
              (add32 (sha256K.getD i 0) (w.getD i 0))))
  let t2 := add32 (sha256S0 a) (sha256Maj a b c)
  (add32 t1 t2, a, b, c, add32 d t1, e, f, g)

/-- Compress one 64-byte block into the running hash. -/
def sha256Block (hs : List Nat) (block : List Nat) : List Nat :=
  let w := (List.range 48).foldl sha256Extend (bytesToWords block).toArray
  let a0 := hs.getD 0 0
  let b0 := hs.getD 1 0
  let c0 := hs.getD 2 0
  let d0 := hs.getD 3 0
  let e0 := hs.getD 4 0
  let f0 := hs.getD 5 0
  let g0 := hs.getD 6 0
  let h0 := hs.getD 7 0
  let (a, b, c, d, e, f, g, h) :=
    (List.range 64).foldl (sha256Round w) (a0, b0, c0, d0, e0, f0, g0, h0)
  [add32 a0 a, add32 b0 b, add32 c0 c, add32 d0 d,
   add32 e0 e, add32 f0 f, add32 g0 g, add32 h0 h]

def hexDigit (n : Nat) : Char :=
  if n < 10 then Char.ofNat ('0'.toNat + n) else Char.ofNat ('a'.toNat + (n - 10))

/-- Lowercase hex of one 32-bit word. -/
def wordToHex (w : Nat) : List Char :=
  (List.range 8).map (fun i => hexDigit ((w >>> ((7 - i) * 4)) &&& 15))

/-- `hashlib.sha256(bytes).hexdigest()`. -/
def sha256hex (msg : List Nat) : String :=
  String.mk ((((chunks64 (sha256Pad msg)).foldl sha256Block sha256H0).map wordToHex).flatten)

/-- `prompt_hash = hashlib.sha256(prompt_text.encode('utf-8')).hexdigest()`. -/
def prompt_hash (prompt_text : String) : String :=
  sha256hex (utf8Bytes prompt_text)

/-- `os.path.join(CACHE_DIR, f"{prompt_hash}.pkl")` with `CACHE_DIR = "api_cache"`. -/
def cache_filepath_of (prompt_text : String) : String :=
  "api_cache/" ++ prompt_hash prompt_text ++ ".pkl"

/-! ## `generate_with_gemini`

The external collaborators are oracles: what reading the cache file
yields, what each API attempt yields, and whether the cache write
succeeds.  `try/except` in the source becomes case analysis on these
outcomes; every exception-prone operation of the function sits inside a
`try/except`, so the embedding is a total function. -/

/-- Outcome of the cache probe (`os.path.exists` + `pickle.load`). -/
inductive CacheReadOutcome where
  /-- cache file does not exist -/
  | absent
  /-- opening or unpickling raised an exception -/
  | loadError
  /-- unpickled data is not a `str` (type mismatch) -/
  | loadedOther
  /-- unpickled data is the string `s` -/
  | loadedStr (s : String)
  deriving DecidableEq

/-- Outcome of one `model.generate_content` attempt. -/
inductive ApiOutcome where
  /-- exception whose message contains "API key not valid" -/
  | authError
  /-- any other exception -/
  | otherError
  /-- response object without a usable `.text` -/
  | noTextAttr
  /-- response with `.text = s` -/
  | text (s : String)

/-- The environment a single `generate_with_gemini` call runs in. -/
structure GenEnv where
  cache : CacheReadOutcome
  api : Nat → ApiOutcome
  cacheWriteOk : Bool

/-- `str.strip()`. -/
def pyStrip (s : String) : String := String.mk (stripL s.data)

/-- How the `for attempt in range(retries)` loop ends. -/
inductive LoopExit where
  /-- `return None` executed inside the loop (authentication error) -/
  | earlyNone
  /-- `break` with an accepted `api_result_text` -/
  | gotText (s : String)
  /-- loop over (or final-attempt `break`) with `api_result_text` still `None` -/
  | exhausted
  deriving DecidableEq

/-- The retry loop of `generate_with_gemini`, also counting the API
attempts made and the `time.sleep(delay)` calls executed.  `fuel` is the
number of remaining loop iterations (`retries - attempt`, kept in sync by
`runGenLoop`), so the `for attempt in range(retries)` guard
`attempt < retries` becomes `0 < fuel`. -/
def genLoop (api : Nat → ApiOutcome) (retries : Nat) :
    Nat → Nat → Nat → Nat → LoopExit × Nat × Nat
  | 0, _, attemptsMade, sleepsDone => (.exhausted, attemptsMade, sleepsDone)
  | fuel + 1, attempt, attemptsMade, sleepsDone =>
    match api attempt with
    | .text s =>
      let t := pyStrip s
      if t.data.length < 20 then
        genLoop api retries fuel (attempt + 1) (attemptsMade + 1) (sleepsDone + 1)
      else (.gotText t, attemptsMade + 1, sleepsDone)
    | .noTextAttr => genLoop api retries fuel (attempt + 1) (attemptsMade + 1) (sleepsDone + 1)
    | .authError => (.earlyNone, attemptsMade + 1, sleepsDone)
    | .otherError =>
      if attempt = retries - 1 then (.exhausted, attemptsMade + 1, sleepsDone)
      else genLoop api retries fuel (attempt + 1) (attemptsMade + 1) (sleepsDone + 1)

/-- The whole `for attempt in range(retries)` loop, started at attempt 0. -/
def runGenLoop (api : Nat → ApiOutcome) (retries : Nat) : LoopExit × Nat × Nat :=
  genLoop api retries retries 0 0 0

/-- An attempt outcome the retry loop treats as transient (retry rather
than accept or abort): a response without `.text`, a non-auth exception,
or text whose stripped length is below the viability threshold 20. -/
def transientOutcome (o : ApiOutcome) : Prop :=
  o = ApiOutcome.noTextAttr ∨ o = ApiOutcome.otherError ∨
    ∃ s, o = ApiOutcome.text s ∧ (pyStrip s).data.length < 20

/-- Observable result of a `generate_with_gemini` call. -/
structure GenResult where
  /-- the Python return value (`None` or a string) -/
  ret : Option String
  /-- number of `model.generate_content` calls made -/
  attempts : Nat
  /-- number of `time.sleep(delay)` calls executed -/
  sleeps : Nat
  /-- the cache file path the call computed and used -/
  path : String
  /-- whether a cache entry was successfully written -/
  wroteCache : Bool
  deriving DecidableEq

/-- `generate_with_gemini(prompt_text, retries, delay)`. -/
def generate_with_gemini (env : GenEnv) (prompt_text : String) (retries : Nat := 3) :
    GenResult :=
  let path := cache_filepath_of prompt_text
  match env.cache with
  | .loadedStr s => { ret := some s, attempts := 0, sleeps := 0, path := path, wroteCache := false }
  | _ =>
    match runGenLoop env.api retries with
    | (.gotText t, att, slp) =>
      { ret := some t, attempts := att, sleeps := slp, path := path, wroteCache := env.cacheWriteOk }
    | (.earlyNone, att, slp) =>
      { ret := none, attempts := att, sleeps := slp, path := path, wroteCache := false }
    | (.exhausted, att, slp) =>
      { ret := none, attempts := att, sleeps := slp, path := path, wroteCache := false }

/-! ## `generate_section_content` -/

/-- The prompt string built by `generate_section_content` (apostrophes
written as `\x27`). -/
def section_prompt (section_title chapter_title book_title topic : String)
    (word_range : Nat × Nat)
    (target_audience book_type world_setting book_style writing_style : String) : String :=
  let persona :=
    if book_type = "Fiction->Textbook Style" then
      "You are an author writing an authoritative \x27" ++ book_style ++ "\x27 titled \x27" ++
        book_title ++ "\x27 within universe \x27" ++ world_setting ++ "\x27 about \x27" ++
        topic ++ "\x27 treated as real."
    else
      "You are an author writing a non-fiction book titled \x27" ++ book_title ++
        "\x27 about \x27" ++ topic ++ "\x27. The book\x27s style is \x27" ++ book_style ++ "\x27."
  persona ++ " Target audience: \x27" ++ target_audience ++
    "\x27. Write content for section \x27" ++ section_title ++ "\x27 in chapter \x27" ++
    chapter_title ++ "\x27. Focus *only* on this section, assuming chapter context. Aim " ++
    Nat.repr word_range.1 ++ "-" ++ Nat.repr word_range.2 ++
    " words. Writing style: \x27" ++ writing_style ++
    "\x27, tailored for audience/book style. Adapt complexity/tone. Address section title theme. " ++
    "Structure logically with paragraphs. No markdown formatting (like **bold** or *italic*). " ++
    "**Important:** Output *only* body text for section \x27" ++ section_title ++
    "\x27. No titles or intro/concluding remarks."

/-- The placeholder substituted when generation fails for a section. -/
def failedSectionPlaceholder (section_title : String) : String :=
  "(Content generation failed: " ++ section_title ++ ")"

/-- `generate_section_content(...)`: obtains the body text for one
section through `generate_with_gemini(prompt, retries=3, delay=5)`,
falling back to the placeholder when the result is `None` or empty
(Python falsiness of `content`). -/
def generate_section_content (env : GenEnv) (section_title chapter_title book_title topic : String)
    (word_range : Nat × Nat)
    (target_audience book_type world_setting book_style writing_style : String) : String :=
  let prompt := section_prompt section_title chapter_title book_title topic word_range
    target_audience book_type world_setting book_style writing_style
  match (generate_with_gemini env prompt 3).ret with
  | none => failedSectionPlaceholder section_title
  | some c => if c = "" then failedSectionPlaceholder section_title else c

/-! ## `create_pdf`: content pass, page map, ToC pass, merge, cleanup

Pass 1 walks front matter, chapters and sections in order; `page_map`
records the current physical page number when each addressable unit
begins.  Text rendering is delegated to the FPDF backend: the oracle
`adv` gives, for the `i`-th rendering event of the pass, how many
automatic page breaks the backend inserts while rendering it.  The
special keys `('TITLE', None)` and `('COPYRIGHT', None)` of the source
become the string keys `("TITLE", none)` and `("COPYRIGHT", none)`. -/

/-- A `page_map` key: `(chapter_title, section_title_or_None)`. -/
abbrev PageKey := String × Option String

/-- The `page_map` dict (insertion order, overwrite on re-assignment). -/
abbrev PageMap := List (PageKey × Nat)

/-- Python `k in page_map`. -/
def pmHasKey (pm : PageMap) (k : PageKey) : Bool :=
  pm.any (fun e => decide (e.1 = k))

/-- `page_map[k] = v`: overwrite in place, else append. -/
def pmSet (pm : PageMap) (k : PageKey) (v : Nat) : PageMap :=
  if pmHasKey pm k then pm.map (fun e => if e.1 = k then (e.1, v) else e)
  else pm ++ [(k, v)]

/-- `page_map.get(k, dflt)`. -/
def pmGet (pm : PageMap) (k : PageKey) (dflt : Nat) : Nat :=
  match pm.find? (fun e => decide (e.1 = k)) with
  | some e => e.2
  | none => dflt

/-- State of pass 1: current page number, next rendering-event index,
and the page map built so far. -/
structure LayoutState where
  page : Nat
  ctr : Nat
  pm : PageMap

/-- `pdf_content.add_page()`. -/
def addPage (st : LayoutState) : LayoutState :=
  { st with page := st.page + 1 }

/-- One rendering event (headings, body tokens, spacing): the backend
oracle `adv` decides how many automatic page breaks it inserts. -/
def renderEvent (adv : Nat → Nat) (st : LayoutState) : LayoutState :=
  { st with page := st.page + adv st.ctr, ctr := st.ctr + 1 }

/-- Lay out one section: record `page_map[(chapter, section)]` at the
current page, then render the section heading and body. -/
def layoutSection (adv : Nat → Nat) (ch : String) (st : LayoutState) (sec : String) :
    LayoutState :=
  renderEvent adv { st with pm := pmSet st.pm (ch, some sec) st.page }

/-- Lay out one chapter: `add_page`, record `page_map[(chapter, None)]`,
render the chapter heading, then the sections in order. -/
def layoutChapter (adv : Nat → Nat) (st : LayoutState) (entry : String × List String) :
    LayoutState :=
  let st := addPage st
  let st := renderEvent adv { st with pm := pmSet st.pm (entry.1, none) st.page }
  entry.2.foldl (layoutSection adv entry.1) st

/-- Pass 1 of `create_pdf`: title page, copyright page, then every
chapter and section.  Returns the finished page map and the total
number of content pages. -/
def contentPass (adv : Nat → Nat) (toc : Toc) : PageMap × Nat :=
  let st : LayoutState := ⟨0, 0, []⟩
  let st := addPage st
  let st := renderEvent adv { st with pm := pmSet st.pm ("TITLE", none) st.page }
  let st := addPage st
  let st := renderEvent adv { st with pm := pmSet st.pm ("COPYRIGHT", none) st.page }
  let st := toc.foldl (layoutChapter adv) st
  (st.pm, st.page)

/-- The page-number cell rendered for one ToC entry:
`display = max(0, page_map.get(key, 0) - 2)` over the integers, printed
as `str(display)` when positive and as the empty string otherwise. -/
def displayPageCell (pm : PageMap) (k : PageKey) : String :=
  let d : Int := max 0 ((pmGet pm k 0 : Int) - 2)
  if 0 < d then Nat.repr d.toNat else ""

/-- Pass 2 of `create_pdf`: walk the parsed ToC in order again and emit,
for every chapter and section key, its rendered page-number cell. -/
def tocPass (pm : PageMap) : Toc → List (PageKey × String)
  | [] => []
  | entry :: rest =>
    ((entry.1, none), displayPageCell pm (entry.1, none)) ::
      (entry.2.map (fun s => ((entry.1, some s), displayPageCell pm (entry.1, some s))) ++
        tocPass pm rest)

/-- Pass 3 of `create_pdf`: `pages[0]`, `pages[1]`, all ToC pages, then
`pages[2:]`.  Accessing `pages[1]` of a shorter document raises
(`none`). -/
def merge_pass {α : Type} (contentPages tocPages : List α) : Option (List α) :=
  match contentPages with
  | p0 :: p1 :: rest => some (p0 :: p1 :: (tocPages ++ rest))
  | _ => none

/-! ### Control flow and temp-file cleanup of `create_pdf` -/

/-- Success/failure of each fallible step of `create_pdf` (a `false`
means the step raised, or — for the two checks — failed its test). -/
structure PdfEnv where
  /-- pass-1 `add_font` calls succeed -/
  pass1FontsOk : Bool
  /-- `tempfile.mkstemp` for the content file succeeds -/
  mkstempContentOk : Bool
  /-- `pdf_content.output(...)` succeeds -/
  contentOutputOk : Bool
  /-- the pass-2 `os.path.exists` font check passes -/
  pass2FontsExist : Bool
  /-- pass-2 `add_font` calls succeed -/
  pass2AddFontOk : Bool
  /-- `tempfile.mkstemp` for the ToC file succeeds -/
  mkstempTocOk : Bool
  /-- `pdf_toc.output(...)` succeeds -/
  tocOutputOk : Bool
  /-- reading, merging and writing the final PDF succeeds -/
  mergeOk : Bool
  /-- `os.remove` on the content temp file succeeds (else `OSError`) -/
  removeContentOk : Bool
  /-- `os.remove` on the ToC temp file succeeds (else `OSError`) -/
  removeTocOk : Bool

/-- What `create_pdf` did: its boolean return value, which temp files
were created, whether the `finally` cleanup attempted to remove each,
and whether each still exists after the call returns. -/
structure PdfRun where
  result : Bool
  contentCreated : Bool
  tocCreated : Bool
  contentRemoveAttempted : Bool
  tocRemoveAttempted : Bool
  contentSurvives : Bool
  tocSurvives : Bool
  deriving DecidableEq

/-- The `try` body of `create_pdf` up to the `finally`: the returned
boolean and which temp files exist at that point.  A raised exception is
caught by `except Exception` and yields `return False`. -/
def createPdfBody (env : PdfEnv) : Bool × Bool × Bool :=
  if !env.pass1FontsOk then (false, false, false)
  else if !env.mkstempContentOk then (false, false, false)
  else if !env.contentOutputOk then (false, true, false)
  else if !env.pass2FontsExist then (false, true, false)
  else if !env.pass2AddFontOk then (false, true, false)
  else if !env.mkstempTocOk then (false, true, false)
  else if !env.tocOutputOk then (false, true, true)
  else if !env.mergeOk then (false, true, true)
  else (true, true, true)

/-- The `finally` cleanup for one temp file: if it exists, try
`os.remove`; an `OSError` is caught with only a warning, in which case
the file survives.  Returns whether the file exists afterwards and
whether removal was attempted. -/
def removeIfPresent (present removeOk : Bool) : Bool × Bool :=
  if present then (if removeOk then false else true, true) else (present, false)

/-- A complete `create_pdf` run: the `try` body followed by the
`finally` cleanup, on every control path. -/
def create_pdf_run (env : PdfEnv) : PdfRun :=
  let body := createPdfBody env
  { result := body.1
    contentCreated := body.2.1
    tocCreated := body.2.2
    contentRemoveAttempted := (removeIfPresent body.2.1 env.removeContentOk).2
    tocRemoveAttempted := (removeIfPresent body.2.2 env.removeTocOk).2
    contentSurvives := (removeIfPresent body.2.1 env.removeContentOk).1
    tocSurvives := (removeIfPresent body.2.2 env.removeTocOk).1 }

/-! ## Concrete environments used by witnesses and counterexamples -/

/-- Cache miss; every API attempt raises an authentication error. -/
def authEnv : GenEnv := ⟨.absent, fun _ => .authError, true⟩

/-- Cache miss; every API attempt raises a transient (non-auth) error. -/
def transientEnv : GenEnv := ⟨.absent, fun _ => .otherError, true⟩

/-! ## Theorems -/

/-- The loop body of `parse_toc`, phrased through the admitted-line
functions `chLine` and `secLine`. -/
theorem parseTocStep_eq (st : Toc × Option String) (l : List Char) :
    parseTocStep st l =
      match chLine l with
      | some k => (tocSetEmpty st.1 k, some k)
      | none =>
        match secLine l, st.2 with
        | some s, some cur =>
          if tocHasKey st.1 cur then (tocAppendSec st.1 cur s, st.2) else st
        | _, _ => st := by
  cases hc : chapterMatch (rstripL l) with
  | some t =>
    by_cases ht : (stripL t).isEmpty
    · simp [parseTocStep, chLine, secLine, hc, ht]
    · simp [parseTocStep, chLine, secLine, hc, ht]
  | none =>
    cases hs : sectionMatch (rstripL l) with
    | some t =>
      rcases st with ⟨d, cur⟩
      cases cur with
      | some c =>
        by_cases ht : (stripL t).isEmpty
        · simp [parseTocStep, chLine, secLine, hc, hs, ht]
        · simp [parseTocStep, chLine, secLine, hc, hs, ht]
      | none => simp [parseTocStep, chLine, secLine, hc, hs]
    | none =>
      rcases st with ⟨d, cur⟩
      cases cur <;> simp [parseTocStep, chLine, secLine, hc, hs]

/-- `parsed_toc[k] = []` never leaves the dict empty. -/
theorem tocSetEmpty_ne_nil (d : Toc) (k : String) : tocSetEmpty d k ≠ [] := by
  unfold tocSetEmpty
  by_cases h : tocHasKey d k
  · rw [if_pos h]
    intro hmap
    rw [List.map_eq_nil_iff] at hmap
    subst hmap
    simp [tocHasKey] at h
  · rw [if_neg h]
    simp

/-- Appending a section title never changes whether the dict is empty. -/
theorem tocAppendSec_eq_nil (d : Toc) (c s : String) : tocAppendSec d c s = [] ↔ d = [] := by
  unfold tocAppendSec
  exact List.map_eq_nil_iff

/-- The accumulated dict is empty iff it started empty and no chapter
line was recognized. -/
theorem foldl_parsed_eq_nil (L : List (List Char)) :
    ∀ d cur, (L.foldl parseTocStep (d, cur)).1 = [] ↔ d = [] ∧ L.filterMap chLine = [] := by
  induction L with
  | nil => intro d cur; simp
  | cons l L ih =>
    intro d cur
    rw [List.foldl_cons, parseTocStep_eq]
    cases hc : chLine l with
    | some k =>
      simp only [List.filterMap_cons, hc]
      rw [ih]
      simp [tocSetEmpty_ne_nil]
    | none =>
      simp only [List.filterMap_cons, hc]
      cases hs : secLine l with
      | some s =>
        cases cur with
        | some c =>
          by_cases hk : tocHasKey d c
          · simp only [if_pos hk, ih, tocAppendSec_eq_nil]
          · simp only [if_neg hk, ih]
        | none => exact ih d none
      | none => cases cur <;> exact ih d _

/-- The dict is empty iff no chapter line was recognized. -/
theorem parsedChapters_eq_nil (text : String) :
    parsedChapters text = [] ↔ recognizedChapterCount text = 0 := by
  unfold parsedChapters recognizedChapterCount
  rw [foldl_parsed_eq_nil]
  simp [List.length_eq_zero]

/-- A nonempty dict with zero total sections has a sectionless chapter. -/
theorem any_isEmpty_of_total_zero (d : Toc) (hd : d ≠ [])
    (h : tocTotalSections d = 0) : d.any (fun e => e.2.isEmpty) = true := by
  cases d with
  | nil => exact absurd rfl hd
  | cons e es =>
    have hlen : e.2.length = 0 := by
      simp only [tocTotalSections, List.map_cons, List.sum_cons] at h
      omega
    have he : e.2 = [] := List.length_eq_zero.mp hlen
    simp [he]

/-- C1: `parse_toc` returns failure iff either zero chapter lines were
recognized, or at least one chapter was recognized but the total number
of sections across all chapters is zero; on every input with at least
one recognized chapter and at least one section in the tree it returns a
tree (the parse is total — no malformed line aborts it). -/
theorem parse_toc_failure_iff (text : String) :
    parse_toc text = none ↔
      recognizedChapterCount text = 0 ∨
      (0 < recognizedChapterCount text ∧ tocTotalSections (parsedChapters text) = 0) := by
  by_cases h0 : text = ""
  · subst h0
    constructor
    · intro _
      exact Or.inl (by decide)
    · intro _
      rfl
  · rw [parse_toc, if_neg h0]
    by_cases hP : (parsedChapters text).isEmpty
    · rw [if_pos hP]
      simp only [true_iff]
      exact Or.inl (parsedChapters_eq_nil text |>.mp (List.isEmpty_iff.mp hP))
    · rw [if_neg hP]
      have hne : parsedChapters text ≠ [] := by
        intro hh
        exact hP (List.isEmpty_iff.mpr hh)
      have hrec : 0 < recognizedChapterCount text := by
        rcases Nat.eq_zero_or_pos (recognizedChapterCount text) with h | h
        · exact absurd ((parsedChapters_eq_nil text).mpr h) hne
        · exact h
      by_cases hcond : ((parsedChapters text).any (fun e => e.2.isEmpty)) ∧
          tocTotalSections (parsedChapters text) = 0 ∧ 0 < (parsedChapters text).length
      · rw [if_pos hcond]
        simp only [true_iff]
        exact Or.inr ⟨hrec, hcond.2.1⟩
      · rw [if_neg hcond]
        constructor
        · intro hcontra
          cases hcontra
        · rintro (hz | ⟨_, htot⟩)
          · exact absurd ((parsedChapters_eq_nil text).mpr hz) hne
          · exact absurd ⟨any_isEmpty_of_total_zero _ hne htot, htot,
              List.length_pos.mpr hne⟩ hcond

/-- `tocHasKey` through key membership. -/
theorem tocHasKey_iff (d : Toc) (k : String) :
    tocHasKey d k = true ↔ k ∈ d.map Prod.fst := by
  simp only [tocHasKey, List.any_eq_true, decide_eq_true_eq, List.mem_map]

/-- Overwriting an existing chapter key leaves the key list unchanged. -/
theorem keys_tocSetEmpty_mem (d : Toc) (k : String) (h : tocHasKey d k = true) :
    (tocSetEmpty d k).map Prod.fst = d.map Prod.fst := by
  rw [tocSetEmpty, if_pos h, List.map_map]
  congr 1
  funext e
  by_cases he : e.1 = k <;> simp [he]

/-- Inserting a fresh chapter key appends it to the key list. -/
theorem keys_tocSetEmpty_not (d : Toc) (k : String) (h : ¬tocHasKey d k = true) :
    (tocSetEmpty d k).map Prod.fst = d.map Prod.fst ++ [k] := by
  rw [tocSetEmpty, if_neg h, List.map_append]
  rfl

/-- Appending a section title never changes the key list. -/
theorem keys_tocAppendSec (d : Toc) (c s : String) :
    (tocAppendSec d c s).map Prod.fst = d.map Prod.fst := by
  rw [tocAppendSec, List.map_map]
  congr 1
  funext e
  by_cases he : e.1 = c <;> simp [he]

/-- Resetting the entry for `k` makes every `k` entry hold `[]`. -/
theorem tocLookup_map_reset_self (k : String) :
    ∀ es : Toc, tocHasKey es k = true →
      tocLookup (es.map (fun e => if e.1 = k then (e.1, []) else e)) k = some [] := by
  intro es
  induction es with
  | nil => intro h; simp [tocHasKey] at h
  | cons e es ih =>
    intro h
    by_cases he : e.1 = k
    · simp [tocLookup, he]
    · have h2 : tocHasKey es k = true := by
        have hh := h
        simp only [tocHasKey, List.any_cons, Bool.or_eq_true, decide_eq_true_eq] at hh
        rcases hh with hh | hh
        · exact absurd hh he
        · exact hh
      simp [tocLookup, he, ih h2]

/-- Appending a fresh entry `(k, v)` makes `k` resolve to `v`. -/
theorem tocLookup_append_single_self (k : String) (v : List String) :
    ∀ es : Toc, ¬tocHasKey es k = true → tocLookup (es ++ [(k, v)]) k = some v := by
  intro es
  induction es with
  | nil => intro _; simp [tocLookup]
  | cons e es ih =>
    intro h
    have he : ¬e.1 = k := fun hh => h (by simp [tocHasKey, List.any_cons, hh])
    have h2 : ¬tocHasKey es k = true := by
      intro hh
      apply h
      simp only [tocHasKey, List.any_cons, Bool.or_eq_true]
      exact Or.inr hh
    simp [tocLookup, he, ih h2]

/-- Resetting a different key does not change a lookup (map form). -/
theorem tocLookup_map_reset_ne (k k2 : String) (h : k ≠ k2) :
    ∀ es : Toc,
      tocLookup (es.map (fun e => if e.1 = k2 then (e.1, []) else e)) k = tocLookup es k := by
  intro es
  induction es with
  | nil => rfl
  | cons e es ih =>
    by_cases he2 : e.1 = k2
    · have hne : ¬e.1 = k := by rw [he2]; exact Ne.symm h
      simp [tocLookup, he2, hne, Ne.symm h, ih]
    · simp [tocLookup, he2, ih]

/-- Appending an entry for a different key does not change a lookup. -/
theorem tocLookup_append_single_ne (k k2 : String) (v : List String) (h : k ≠ k2) :
    ∀ es : Toc, tocLookup (es ++ [(k2, v)]) k = tocLookup es k := by
  intro es
  induction es with
  | nil => simp [tocLookup, Ne.symm h]
  | cons e es ih =>
    by_cases he : e.1 = k
    · simp [tocLookup, he]
    · simp [tocLookup, he, ih]

/-- After a reset, the chapter's entry holds the empty section list. -/
theorem tocLookup_setEmpty_self (d : Toc) (k : String) :
    tocLookup (tocSetEmpty d k) k = some [] := by
  rw [tocSetEmpty]
  by_cases h : tocHasKey d k
  · rw [if_pos h]
    exact tocLookup_map_reset_self k d h
  · rw [if_neg h]
    exact tocLookup_append_single_self k [] d h

/-- A reset of a different chapter key does not change a lookup. -/
theorem tocLookup_setEmpty_ne (d : Toc) (k k2 : String) (h : k ≠ k2) :
    tocLookup (tocSetEmpty d k2) k = tocLookup d k := by
  rw [tocSetEmpty]
  by_cases hk : tocHasKey d k2
  · rw [if_pos hk]
    exact tocLookup_map_reset_ne k k2 h d
  · rw [if_neg hk]
    exact tocLookup_append_single_ne k k2 [] h d

/-- Appending a section to the current chapter extends its entry. -/
theorem tocLookup_appendSec_self (d : Toc) (k s : String) (v : List String)
    (h : tocLookup d k = some v) :
    tocLookup (tocAppendSec d k s) k = some (v ++ [s]) := by
  induction d with
  | nil => simp [tocLookup] at h
  | cons e es ih =>
    by_cases he : e.1 = k
    · simp only [tocLookup, if_pos he] at h
      simp [tocAppendSec, tocLookup, he, Option.some.inj h]
    · simp only [tocLookup, if_neg he] at h
      simp [tocAppendSec, tocLookup, he]
      exact ih h

/-- Appending a section to a different chapter does not change a lookup. -/
theorem tocLookup_appendSec_ne (d : Toc) (k c s : String) (h : k ≠ c) :
    tocLookup (tocAppendSec d c s) k = tocLookup d k := by
  rw [tocAppendSec]
  induction d with
  | nil => rfl
  | cons e es ih =>
    by_cases he2 : e.1 = c
    · have hne : ¬e.1 = k := by rw [he2]; exact Ne.symm h
      simp [tocLookup, he2, hne, Ne.symm h, ih]
    · simp [tocLookup, he2, ih]

/-- A successful lookup means the key is present. -/
theorem tocHasKey_of_lookup (d : Toc) (k : String) (v : List String)
    (h : tocLookup d k = some v) : tocHasKey d k = true := by
  induction d with
  | nil => simp [tocLookup] at h
  | cons e es ih =>
    by_cases he : e.1 = k
    · simp [tocHasKey, List.any_cons, he]
    · simp only [tocLookup, if_neg he] at h
      simp only [tocHasKey, List.any_cons, Bool.or_eq_true, decide_eq_true_eq]
      exact Or.inr (by simpa [tocHasKey] using ih h)

/-- `dedupFirstAux` only depends on the membership of `seen`. -/
theorem dedupFirstAux_congr (l : List String) :
    ∀ s t, (∀ x, x ∈ s ↔ x ∈ t) → dedupFirstAux s l = dedupFirstAux t l := by
  induction l with
  | nil => intros; rfl
  | cons x xs ih =>
    intro s t hst
    simp only [dedupFirstAux]
    by_cases hx : x ∈ s
    · rw [if_pos hx, if_pos ((hst x).mp hx), ih s t hst]
    · rw [if_neg hx, if_neg (fun hh => hx ((hst x).mpr hh)),
        ih (x :: s) (x :: t) (by intro y; simp [hst y])]

/-- Membership in `dedupFirstAux`. -/
theorem mem_dedupFirstAux (l : List String) :
    ∀ seen x, x ∈ dedupFirstAux seen l ↔ x ∈ l ∧ x ∉ seen := by
  induction l with
  | nil => simp [dedupFirstAux]
  | cons y ys ih =>
    intro seen x
    simp only [dedupFirstAux]
    by_cases hy : y ∈ seen
    · rw [if_pos hy, ih seen x]
      constructor
      · rintro ⟨h1, h2⟩
        exact ⟨List.mem_cons_of_mem _ h1, h2⟩
      · rintro ⟨h1, h2⟩
        rcases List.mem_cons.mp h1 with rfl | h1b
        · exact absurd hy h2
        · exact ⟨h1b, h2⟩
    · rw [if_neg hy]
      constructor
      · intro hx
        rcases List.mem_cons.mp hx with rfl | hx2
        · exact ⟨List.mem_cons_self _ _, hy⟩
        · obtain ⟨h1, h2⟩ := (ih (y :: seen) x).mp hx2
          exact ⟨List.mem_cons_of_mem _ h1, fun hs => h2 (List.mem_cons_of_mem _ hs)⟩
      · rintro ⟨h1, h2⟩
        rcases List.mem_cons.mp h1 with rfl | h1b
        · exact List.mem_cons_self _ _
        · by_cases hxy : x = y
          · subst hxy
            exact List.mem_cons_self _ _
          · refine List.mem_cons_of_mem _ ((ih (y :: seen) x).mpr ⟨h1b, ?_⟩)
            intro hs
            rcases List.mem_cons.mp hs with rfl | hs2
            · exact hxy rfl
            · exact h2 hs2

/-- `dedupFirstAux` has no duplicates. -/
theorem nodup_dedupFirstAux (l : List String) :
    ∀ seen, (dedupFirstAux seen l).Nodup := by
  induction l with
  | nil => intro _; simp [dedupFirstAux]
  | cons y ys ih =>
    intro seen
    simp only [dedupFirstAux]
    by_cases hy : y ∈ seen
    · rw [if_pos hy]; exact ih seen
    · rw [if_neg hy]
      refine List.nodup_cons.mpr ⟨?_, ih (y :: seen)⟩
      intro hmem
      rw [mem_dedupFirstAux] at hmem
      exact hmem.2 (List.mem_cons_self _ _)

/-- The chapter keys accumulated by the loop: the starting keys followed
by the first occurrences of the newly recognized chapter titles. -/
theorem foldl_keys (L : List (List Char)) :
    ∀ d cur, ((L.foldl parseTocStep (d, cur)).1).map Prod.fst =
      d.map Prod.fst ++ dedupFirstAux (d.map Prod.fst) (L.filterMap chLine) := by
  induction L with
  | nil => intro d cur; simp [dedupFirstAux]
  | cons l L ih =>
    intro d cur
    rw [List.foldl_cons, parseTocStep_eq]
    cases hc : chLine l with
    | some k =>
      simp only [List.filterMap_cons, hc]
      by_cases hk : tocHasKey d k
      · have hkm : k ∈ d.map Prod.fst := (tocHasKey_iff d k).mp hk
        rw [ih, keys_tocSetEmpty_mem d k hk]
        simp only [dedupFirstAux, if_pos hkm]
      · have hkm : k ∉ d.map Prod.fst := fun hh => hk ((tocHasKey_iff d k).mpr hh)
        rw [ih, keys_tocSetEmpty_not d k hk]
        simp only [dedupFirstAux, if_neg hkm]
        rw [dedupFirstAux_congr _ (d.map Prod.fst ++ [k]) (k :: d.map Prod.fst)
          (by intro y; simp [List.mem_append, List.mem_cons, or_comm])]
        simp
    | none =>
      simp only [List.filterMap_cons, hc]
      cases hs : secLine l with
      | some s =>
        cases cur with
        | some c =>
          by_cases hk : tocHasKey d c
          · simp only [if_pos hk]
            rw [ih, keys_tocAppendSec]
          · simp only [if_neg hk]
            exact ih d (some c)
        | none => exact ih d none
      | none => cases cur <;> exact ih d _

/-- A lookup is unchanged by lines while the chapter is not current and
never re-recognized. -/
theorem foldl_lookup_untouched (L : List (List Char)) :
    ∀ (d : Toc) (cur : Option String) (k : String),
      (∀ l2 ∈ L, chLine l2 ≠ some k) → cur ≠ some k →
      tocLookup ((L.foldl parseTocStep (d, cur)).1) k = tocLookup d k := by
  induction L with
  | nil => intro d cur k _ _; rfl
  | cons l L ih =>
    intro d cur k hL hcur
    rw [List.foldl_cons, parseTocStep_eq]
    have hLtail : ∀ l2 ∈ L, chLine l2 ≠ some k :=
      fun l2 h2 => hL l2 (List.mem_cons_of_mem _ h2)
    cases hc : chLine l with
    | some k2 =>
      have hk2 : k2 ≠ k := by
        intro hh
        exact hL l (List.mem_cons_self _ _) (hh ▸ hc)
      rw [ih _ _ _ hLtail (fun hh => hk2 (Option.some.inj hh))]
      exact tocLookup_setEmpty_ne d k k2 (Ne.symm hk2)
    | none =>
      cases hs : secLine l with
      | some s =>
        cases cur with
        | some c =>
          have hck : k ≠ c := by
            intro hh
            exact hcur (by rw [hh])
          by_cases hk : tocHasKey d c
          · simp only [if_pos hk]
            rw [ih _ _ _ hLtail hcur]
            exact tocLookup_appendSec_ne d k c s hck
          · simp only [if_neg hk]
            exact ih _ _ _ hLtail hcur
        | none => exact ih _ _ _ hLtail hcur
      | none => cases cur <;> exact ih _ _ _ hLtail hcur

/-- While a chapter is current and never re-recognized, exactly the
admitted section lines before the next chapter line are appended to its
entry. -/
theorem foldl_lookup_current (L : List (List Char)) :
    ∀ (d : Toc) (k : String) (acc : List String),
      tocLookup d k = some acc → (∀ l2 ∈ L, chLine l2 ≠ some k) →
      tocLookup ((L.foldl parseTocStep (d, some k)).1) k =
        some (acc ++ (L.takeWhile (fun l2 => (chLine l2).isNone)).filterMap secLine) := by
  induction L with
  | nil => intro d k acc h _; simpa using h
  | cons l L ih =>
    intro d k acc hacc hL
    rw [List.foldl_cons, parseTocStep_eq]
    have hLtail : ∀ l2 ∈ L, chLine l2 ≠ some k :=
      fun l2 h2 => hL l2 (List.mem_cons_of_mem _ h2)
    cases hc : chLine l with
    | some k2 =>
      have hk2 : k2 ≠ k := by
        intro hh
        exact hL l (List.mem_cons_self _ _) (hh ▸ hc)
      rw [foldl_lookup_untouched L _ _ _ hLtail (fun hh => hk2 (Option.some.inj hh))]
      rw [tocLookup_setEmpty_ne d k k2 (Ne.symm hk2), hacc]
      simp [List.takeWhile_cons, hc]
    | none =>
      cases hs : secLine l with
      | some s =>
        have hk : tocHasKey d k = true := tocHasKey_of_lookup d k acc hacc
        simp only [if_pos hk]
        rw [ih _ _ _ (tocLookup_appendSec_self d k s acc hacc) hLtail]
        simp [List.takeWhile_cons, hc, List.filterMap_cons, hs]
      | none =>
        rw [ih _ _ _ hacc hLtail]
        simp [List.takeWhile_cons, hc, List.filterMap_cons, hs]

/-- A successful parse returns exactly the accumulated dict. -/
theorem parse_toc_some (text : String) (parsed : Toc)
    (h : parse_toc text = some parsed) : parsed = parsedChapters text := by
  simp only [parse_toc] at h
  split at h
  · cases h
  · split at h
    · cases h
    · split at h
      · cases h
      · exact (Option.some.inj h).symm

/-- C6: on `"1. Intro\n  1.1. Background\n  1.2. Scope\n2. Methods\n  2.1. Setup"`,
`parse_toc` returns exactly the chapters `["Intro", "Methods"]` in that
order, with sections `["Background", "Scope"]` under `"Intro"` and
`["Setup"]` under `"Methods"`, preserving input order throughout. -/
theorem parse_toc_roundtrip_example :
    parse_toc "1. Intro\n  1.1. Background\n  1.2. Scope\n2. Methods\n  2.1. Setup" =
      some [("Intro", ["Background", "Scope"]), ("Methods", ["Setup"])] := by
  decide

/-- C2 counterexample: with an authentication error on the first of 3
attempts, `generate_with_gemini` makes exactly one attempt and sleeps
zero times, but the value it propagates (`None`) is identical to — not
distinct from — the value produced by exhausting all 3 attempts on
transient failures. -/
theorem auth_failure_result_equals_exhaustion_result :
    (generate_with_gemini authEnv "p" 3).attempts = 1 ∧
    (generate_with_gemini authEnv "p" 3).sleeps = 0 ∧
    (generate_with_gemini transientEnv "p" 3).attempts = 3 ∧
    (generate_with_gemini authEnv "p" 3).ret = none ∧
    (generate_with_gemini transientEnv "p" 3).ret = none ∧
    (generate_with_gemini authEnv "p" 3).ret = (generate_with_gemini transientEnv "p" 3).ret :=
  ⟨rfl, rfl, rfl, rfl, rfl, rfl⟩

/-- C2 amended: on a cache miss with an authentication-class error on
the first attempt, `generate_with_gemini` makes exactly one external
attempt and never sleeps, and it propagates the failure as `None` — the
same value that exhausting all attempts on transient failures produces,
not a distinct fatal-failure value. -/
theorem auth_error_single_attempt (env : GenEnv) (p : String) (retries : Nat)
    (hmiss : ∀ s, env.cache ≠ CacheReadOutcome.loadedStr s)
    (hr : 1 ≤ retries) (hauth : env.api 0 = ApiOutcome.authError) :
    (generate_with_gemini env p retries).attempts = 1 ∧
    (generate_with_gemini env p retries).sleeps = 0 ∧
    (generate_with_gemini env p retries).ret = none := by
  obtain ⟨n, rfl⟩ : ∃ n, retries = n + 1 := ⟨retries - 1, by omega⟩
  have hloop : runGenLoop env.api (n + 1) = (.earlyNone, 1, 0) := by
    simp [runGenLoop, genLoop, hauth]
  cases hc : env.cache with
  | loadedStr s => exact absurd hc (hmiss s)
  | absent => simp [generate_with_gemini, hc, hloop]
  | loadError => simp [generate_with_gemini, hc, hloop]
  | loadedOther => simp [generate_with_gemini, hc, hloop]

/-- C2 amended, witness at a concrete input. -/
theorem auth_error_single_attempt_witness :
    (generate_with_gemini authEnv "p" 3).attempts = 1 ∧
    (generate_with_gemini authEnv "p" 3).sleeps = 0 ∧
    (generate_with_gemini authEnv "p" 3).ret = none :=
  auth_error_single_attempt authEnv "p" 3
    (fun s h => CacheReadOutcome.noConfusion h) (by decide) rfl

/-- The cache file path used by a call is a function of the prompt alone. -/
theorem generate_path_eq (env : GenEnv) (p : String) (r : Nat) :
    (generate_with_gemini env p r).path = cache_filepath_of p := by
  unfold generate_with_gemini
  cases env.cache with
  | loadedStr s => rfl
  | absent => rcases runGenLoop env.api r with ⟨e, a, s⟩; cases e <;> rfl
  | loadError => rcases runGenLoop env.api r with ⟨e, a, s⟩; cases e <;> rfl
  | loadedOther => rcases runGenLoop env.api r with ⟨e, a, s⟩; cases e <;> rfl

/-- C3: the cache fingerprint is a pure, deterministic function of the
request payload bytes alone — byte-identical prompts yield the same
SHA-256 fingerprint, and the cache file path used by
`generate_with_gemini` is the same for byte-identical prompts across
arbitrary environments (any cache state, API behavior, write outcome,
retry budget). -/
theorem fingerprint_pure (env env2 : GenEnv) (r r2 : Nat) (p q : String)
    (h : utf8Bytes p = utf8Bytes q) :
    prompt_hash p = prompt_hash q ∧
    (generate_with_gemini env p r).path = (generate_with_gemini env2 q r2).path := by
  have hh : prompt_hash p = prompt_hash q := by unfold prompt_hash; rw [h]
  refine ⟨hh, ?_⟩
  rw [generate_path_eq, generate_path_eq]
  unfold cache_filepath_of
  rw [hh]

/-- C3, witness at a concrete input. -/
theorem fingerprint_pure_witness :
    prompt_hash "abc" = prompt_hash "abc" ∧
    (generate_with_gemini authEnv "abc" 3).path =
      (generate_with_gemini transientEnv "abc" 1).path :=
  fingerprint_pure authEnv transientEnv 3 1 "abc" "abc" rfl

/-- C4: cache errors are never fatal to `generate_with_gemini`: a cache
read that raises, or that yields a mistyped stored entry, produces
exactly the behavior of a cache miss (generation proceeds identically),
and whether the post-acceptance cache write succeeds or fails never
changes the value returned to the caller. -/
theorem cache_errors_nonfatal (env : GenEnv) (p : String) (r : Nat) :
    generate_with_gemini { env with cache := .loadError } p r =
      generate_with_gemini { env with cache := .absent } p r ∧
    generate_with_gemini { env with cache := .loadedOther } p r =
      generate_with_gemini { env with cache := .absent } p r ∧
    (generate_with_gemini { env with cacheWriteOk := false } p r).ret =
      (generate_with_gemini { env with cacheWriteOk := true } p r).ret := by
  refine ⟨rfl, rfl, ?_⟩
  unfold generate_with_gemini
  cases env.cache with
  | loadedStr s => rfl
  | absent => rcases runGenLoop env.api r with ⟨e, a, s⟩; cases e <;> rfl
  | loadError => rcases runGenLoop env.api r with ⟨e, a, s⟩; cases e <;> rfl
  | loadedOther => rcases runGenLoop env.api r with ⟨e, a, s⟩; cases e <;> rfl

/-- If every attempt is transient, the loop exhausts its budget: it ends
in the `exhausted` state and makes exactly one API call per remaining
iteration. -/
theorem genLoop_transient (api : Nat → ApiOutcome) (htrans : ∀ i, transientOutcome (api i))
    (retries : Nat) :
    ∀ fuel attempt att slp, attempt + fuel = retries →
      (genLoop api retries fuel attempt att slp).1 = LoopExit.exhausted ∧
      (genLoop api retries fuel attempt att slp).2.1 = att + fuel := by
  intro fuel
  induction fuel with
  | zero => intro attempt att slp _; exact ⟨rfl, by simp [genLoop]⟩
  | succ n ih =>
    intro attempt att slp hfa
    rcases htrans attempt with h | h | ⟨s, hs, hlen⟩
    · simp only [genLoop, h]
      obtain ⟨h1, h2⟩ := ih (attempt + 1) (att + 1) (slp + 1) (by omega)
      exact ⟨h1, by rw [h2]; omega⟩
    · simp only [genLoop, h]
      by_cases hx : attempt = retries - 1
      · have hn : n = 0 := by omega
        simp [hx, hn]
      · simp only [if_neg hx]
        obtain ⟨h1, h2⟩ := ih (attempt + 1) (att + 1) (slp + 1) (by omega)
        exact ⟨h1, by rw [h2]; omega⟩
    · simp only [genLoop, hs, if_pos hlen]
      obtain ⟨h1, h2⟩ := ih (attempt + 1) (att + 1) (slp + 1) (by omega)
      exact ⟨h1, by rw [h2]; omega⟩

/-- On a cache miss, `generate_with_gemini` is determined by the retry
loop's exit. -/
theorem generate_miss (env : GenEnv) (q : String) (r : Nat)
    (hmiss : ∀ s, env.cache ≠ CacheReadOutcome.loadedStr s) :
    generate_with_gemini env q r =
      (match runGenLoop env.api r with
       | (.gotText t, att, slp) =>
         { ret := some t, attempts := att, sleeps := slp,
           path := cache_filepath_of q, wroteCache := env.cacheWriteOk }
       | (.earlyNone, att, slp) =>
         { ret := none, attempts := att, sleeps := slp,
           path := cache_filepath_of q, wroteCache := false }
       | (.exhausted, att, slp) =>
         { ret := none, attempts := att, sleeps := slp,
           path := cache_filepath_of q, wroteCache := false }) := by
  unfold generate_with_gemini
  cases hc : env.cache with
  | loadedStr s => exact absurd hc (hmiss s)
  | absent => rfl
  | loadError => rfl
  | loadedOther => rfl

/-- C5: if every attempt of the configured budget ends in a transient
failure, `generate_with_gemini` returns the failure value `None` (without
raising) after making exactly `retries` attempts, and
`generate_section_content` converts that failure into the deterministic
placeholder string, which contains the section's title. -/
theorem transient_exhaustion_placeholder (env : GenEnv) (p : String) (retries : Nat)
    (hmiss : ∀ s, env.cache ≠ CacheReadOutcome.loadedStr s)
    (htrans : ∀ i, transientOutcome (env.api i))
    (st ch bt tp : String) (wr : Nat × Nat) (ta bty ws bs wst : String) :
    (generate_with_gemini env p retries).ret = none ∧
    (generate_with_gemini env p retries).attempts = retries ∧
    generate_section_content env st ch bt tp wr ta bty ws bs wst =
      failedSectionPlaceholder st ∧
    st.data <:+: (generate_section_content env st ch bt tp wr ta bty ws bs wst).data := by
  have hgen : ∀ (q : String) (r : Nat),
      (generate_with_gemini env q r).ret = none ∧
      (generate_with_gemini env q r).attempts = r := by
    intro q r
    have h1 : (runGenLoop env.api r).1 = LoopExit.exhausted :=
      (genLoop_transient env.api htrans r r 0 0 0 (by omega)).1
    have h2 : (runGenLoop env.api r).2.1 = 0 + r :=
      (genLoop_transient env.api htrans r r 0 0 0 (by omega)).2
    rw [generate_miss env q r hmiss]
    rcases hr : runGenLoop env.api r with ⟨e, a, _s⟩
    rw [hr] at h1 h2
    cases e with
    | earlyNone => exact absurd h1 (by simp)
    | gotText t => exact absurd h1 (by simp)
    | exhausted => exact ⟨rfl, by simpa using h2⟩
  have h3 : generate_section_content env st ch bt tp wr ta bty ws bs wst =
      failedSectionPlaceholder st := by
    have hret := (hgen (section_prompt st ch bt tp wr ta bty ws bs wst) 3).1
    simp only [generate_section_content]
    rw [hret]
  refine ⟨(hgen p retries).1, (hgen p retries).2, h3, ?_⟩
  rw [h3]
  refine ⟨"(Content generation failed: ".data, ")".data, ?_⟩
  simp [failedSectionPlaceholder, String.data_append, List.append_assoc]

/-- C5, witness at a concrete input. -/
theorem transient_exhaustion_placeholder_witness :
    (generate_with_gemini transientEnv "p" 3).ret = none ∧
    (generate_with_gemini transientEnv "p" 3).attempts = 3 ∧
    generate_section_content transientEnv "Setup" "Methods" "Book" "Topic" (700, 1200)
        "General audience" "Non-Fiction" "World" "Style" "Clear" =
      failedSectionPlaceholder "Setup" ∧
    "Setup".data <:+:
      (generate_section_content transientEnv "Setup" "Methods" "Book" "Topic" (700, 1200)
        "General audience" "Non-Fiction" "World" "Style" "Clear").data :=
  transient_exhaustion_placeholder transientEnv "p" 3
    (fun _ h => CacheReadOutcome.noConfusion h)
    (fun _ => Or.inr (Or.inl rfl)) "Setup" "Methods" "Book" "Topic" (700, 1200)
    "General audience" "Non-Fiction" "World" "Style" "Clear"

/-- C8: a successful merge pass emits exactly content page 1, content
page 2, all ToC pages in order, then content pages 3 onward in their
original order — nothing dropped, duplicated, or reordered. -/
theorem merge_pass_order {α : Type} (contentPages tocPages : List α)
    (h : 2 ≤ contentPages.length) :
    merge_pass contentPages tocPages =
      some (contentPages.take 2 ++ tocPages ++ contentPages.drop 2) := by
  match contentPages, h with
  | p0 :: p1 :: rest, _ => simp [merge_pass]

/-- C8, witness at a concrete input. -/
theorem merge_pass_order_witness :
    2 ≤ ([10, 20, 30] : List Nat).length ∧
    merge_pass ([10, 20, 30] : List Nat) [1, 2] =
      some (([10, 20, 30] : List Nat).take 2 ++ [1, 2] ++ ([10, 20, 30] : List Nat).drop 2) :=
  ⟨by decide, merge_pass_order [10, 20, 30] [1, 2] (by decide)⟩

/-- `pmHasKey` through key membership. -/
theorem pmHasKey_iff (pm : PageMap) (k : PageKey) :
    pmHasKey pm k = true ↔ k ∈ pm.map Prod.fst := by
  simp only [pmHasKey, List.any_eq_true, decide_eq_true_eq, List.mem_map]

/-- Keys after `page_map[k2] = v`: the old keys plus `k2`. -/
theorem keys_pmSet (pm : PageMap) (k2 : PageKey) (v : Nat) (k : PageKey) :
    k ∈ (pmSet pm k2 v).map Prod.fst ↔ k ∈ pm.map Prod.fst ∨ k = k2 := by
  unfold pmSet
  by_cases h : pmHasKey pm k2
  · rw [if_pos h, List.map_map]
    have hcomp : (Prod.fst ∘ fun e : PageKey × Nat => if e.1 = k2 then (e.1, v) else e) =
        Prod.fst := by
      funext e; by_cases he : e.1 = k2 <;> simp [he]
    rw [hcomp]
    have hk2 : k2 ∈ pm.map Prod.fst := (pmHasKey_iff pm k2).mp h
    constructor
    · exact Or.inl
    · rintro (hh | rfl)
      · exact hh
      · exact hk2
  · rw [if_neg h]
    simp

/-- Laying out a section adds exactly its key to the page map. -/
theorem keys_layoutSection (adv : Nat → Nat) (ch : String) (st : LayoutState) (sec : String)
    (k : PageKey) :
    k ∈ ((layoutSection adv ch st sec).pm).map Prod.fst ↔
      k ∈ st.pm.map Prod.fst ∨ k = (ch, some sec) := by
  simp only [layoutSection, renderEvent]
  exact keys_pmSet _ _ _ _

/-- Keys after laying out a run of sections. -/
theorem keys_foldl_layoutSection (adv : Nat → Nat) (ch : String) (secs : List String) :
    ∀ st k, k ∈ ((secs.foldl (layoutSection adv ch) st).pm).map Prod.fst ↔
      k ∈ st.pm.map Prod.fst ∨ ∃ s ∈ secs, k = (ch, some s) := by
  induction secs with
  | nil => simp
  | cons s ss ih =>
    intro st k
    rw [List.foldl_cons, ih, keys_layoutSection]
    simp only [List.mem_cons]
    constructor
    · rintro ((hh | rfl) | ⟨x, hx, rfl⟩)
      · exact Or.inl hh
      · exact Or.inr ⟨s, Or.inl rfl, rfl⟩
      · exact Or.inr ⟨x, Or.inr hx, rfl⟩
    · rintro (hh | ⟨x, hx | hx, rfl⟩)
      · exact Or.inl (Or.inl hh)
      · subst hx; exact Or.inl (Or.inr rfl)
      · exact Or.inr ⟨x, hx, rfl⟩

/-- Keys after laying out one chapter. -/
theorem keys_layoutChapter (adv : Nat → Nat) (st : LayoutState) (entry : String × List String)
    (k : PageKey) :
    k ∈ ((layoutChapter adv st entry).pm).map Prod.fst ↔
      k ∈ st.pm.map Prod.fst ∨ k = (entry.1, none) ∨ ∃ s ∈ entry.2, k = (entry.1, some s) := by
  simp only [layoutChapter, addPage, renderEvent]
  rw [keys_foldl_layoutSection, keys_pmSet]
  tauto

/-- Keys after laying out a run of chapters. -/
theorem keys_foldl_layoutChapter (adv : Nat → Nat) (toc : Toc) :
    ∀ st k, k ∈ (((toc.foldl (layoutChapter adv) st)).pm).map Prod.fst ↔
      k ∈ st.pm.map Prod.fst ∨
        ∃ e ∈ toc, k = (e.1, none) ∨ ∃ s ∈ e.2, k = (e.1, some s) := by
  induction toc with
  | nil => simp
  | cons e es ih =>
    intro st k
    rw [List.foldl_cons, ih, keys_layoutChapter]
    simp only [List.mem_cons]
    constructor
    · rintro ((hh | hh) | ⟨x, hx, hk⟩)
      · exact Or.inl hh
      · exact Or.inr ⟨e, Or.inl rfl, hh⟩
      · exact Or.inr ⟨x, Or.inr hx, hk⟩
    · rintro (hh | ⟨x, hx | hx, hk⟩)
      · exact Or.inl (Or.inl hh)
      · subst hx; exact Or.inl (Or.inr hk)
      · exact Or.inr ⟨x, hx, hk⟩

/-- After pass 1, every chapter key and every section key of the parsed
outline is present in the page map. -/
theorem contentPass_hasKey (adv : Nat → Nat) (toc : Toc) (ch : String) (secs : List String)
    (hmem : (ch, secs) ∈ toc) :
    pmHasKey (contentPass adv toc).1 (ch, none) = true ∧
    ∀ s ∈ secs, pmHasKey (contentPass adv toc).1 (ch, some s) = true := by
  constructor
  · rw [pmHasKey_iff]
    simp only [contentPass, renderEvent]
    rw [keys_foldl_layoutChapter]
    exact Or.inr ⟨(ch, secs), hmem, Or.inl rfl⟩
  · intro s hs
    rw [pmHasKey_iff]
    simp only [contentPass, renderEvent]
    rw [keys_foldl_layoutChapter]
    exact Or.inr ⟨(ch, secs), hmem, Or.inr ⟨s, hs, rfl⟩⟩

/-- Every chapter and section of the outline gets its page-number cell
emitted by the ToC pass. -/
theorem tocPass_mem (pm : PageMap) (toc : Toc) (ch : String) (secs : List String)
    (hmem : (ch, secs) ∈ toc) :
    ((ch, (none : Option String)), displayPageCell pm (ch, none)) ∈ tocPass pm toc ∧
    ∀ s ∈ secs, ((ch, some s), displayPageCell pm (ch, some s)) ∈ tocPass pm toc := by
  induction toc with
  | nil => cases hmem
  | cons e es ih =>
    rcases List.mem_cons.mp hmem with he | he
    · constructor
      · rw [← he]; exact List.mem_cons_self _ _
      · intro s hs
        rw [← he]
        simp only [tocPass, List.mem_cons, List.mem_append, List.mem_map]
        exact Or.inr (Or.inl ⟨s, hs, rfl⟩)
    · obtain ⟨h1, h2⟩ := ih he
      constructor
      · simp only [tocPass, List.mem_cons, List.mem_append]
        exact Or.inr (Or.inr h1)
      · intro s hs
        simp only [tocPass, List.mem_cons, List.mem_append]
        exact Or.inr (Or.inr (h2 s hs))

/-- C7: after the content-layout pass, every chapter key `(ch, None)`
and every section key `(ch, sec)` of the parsed outline has an entry in
the page map, and the ToC pass renders for each such key the display
page number `max(0, physical − 2)` — printed when positive, blank when
the computed display number is 0 or the key is absent (lookup default
0), never raising. -/
theorem page_map_complete_toc_render (adv : Nat → Nat) (toc : Toc) (ch : String)
    (secs : List String) (hmem : (ch, secs) ∈ toc) :
    pmHasKey (contentPass adv toc).1 (ch, none) = true ∧
    (∀ s ∈ secs, pmHasKey (contentPass adv toc).1 (ch, some s) = true) ∧
    ((ch, (none : Option String)),
        (if 0 < max 0 ((pmGet (contentPass adv toc).1 (ch, none) 0 : Int) - 2) then
          Nat.repr (max 0 ((pmGet (contentPass adv toc).1 (ch, none) 0 : Int) - 2)).toNat
        else "")) ∈ tocPass (contentPass adv toc).1 toc ∧
    ∀ s ∈ secs,
      ((ch, some s),
        (if 0 < max 0 ((pmGet (contentPass adv toc).1 (ch, some s) 0 : Int) - 2) then
          Nat.repr (max 0 ((pmGet (contentPass adv toc).1 (ch, some s) 0 : Int) - 2)).toNat
        else "")) ∈ tocPass (contentPass adv toc).1 toc := by
  obtain ⟨hk, hks⟩ := contentPass_hasKey adv toc ch secs hmem
  obtain ⟨hm, hms⟩ := tocPass_mem (contentPass adv toc).1 toc ch secs hmem
  exact ⟨hk, hks, hm, hms⟩

/-- C7, witness at a concrete input. -/
theorem page_map_complete_toc_render_witness :
    (("A", ["s1"]) ∈ ([("A", ["s1"])] : Toc)) ∧
    (pmHasKey (contentPass (fun _ => 0) [("A", ["s1"])]).1 ("A", none) = true ∧
    (∀ s ∈ ["s1"], pmHasKey (contentPass (fun _ => 0) [("A", ["s1"])]).1 ("A", some s) = true) ∧
    (("A", (none : Option String)),
        (if 0 < max 0 ((pmGet (contentPass (fun _ => 0) [("A", ["s1"])]).1 ("A", none) 0 : Int) - 2) then
          Nat.repr (max 0 ((pmGet (contentPass (fun _ => 0) [("A", ["s1"])]).1 ("A", none) 0 : Int) - 2)).toNat
        else "")) ∈ tocPass (contentPass (fun _ => 0) [("A", ["s1"])]).1 [("A", ["s1"])] ∧
    ∀ s ∈ ["s1"],
      (("A", some s),
        (if 0 < max 0 ((pmGet (contentPass (fun _ => 0) [("A", ["s1"])]).1 ("A", some s) 0 : Int) - 2) then
          Nat.repr (max 0 ((pmGet (contentPass (fun _ => 0) [("A", ["s1"])]).1 ("A", some s) 0 : Int) - 2)).toNat
        else "")) ∈ tocPass (contentPass (fun _ => 0) [("A", ["s1"])]).1 [("A", ["s1"])]) :=
  ⟨by decide,
    page_map_complete_toc_render (fun _ => 0) [("A", ["s1"])] "A" ["s1"] (by decide)⟩

/-- C9 counterexample: when `os.remove` raises an `OSError` in the
`finally` cleanup, a created temp file survives `create_pdf`'s return —
here even on the fully successful exit path (merge succeeded, both temp
files created, both removals fail): both files survive, refuting "no
temporary file created by create_pdf survives its return". -/
theorem create_pdf_remove_failure_survives :
    (create_pdf_run ⟨true, true, true, true, true, true, true, true, false, false⟩).result =
      true ∧
    (create_pdf_run ⟨true, true, true, true, true, true, true, true, false, false⟩).contentCreated =
      true ∧
    (create_pdf_run ⟨true, true, true, true, true, true, true, true, false, false⟩).tocCreated =
      true ∧
    (create_pdf_run ⟨true, true, true, true, true, true, true, true, false, false⟩).contentSurvives =
      true ∧
    (create_pdf_run ⟨true, true, true, true, true, true, true, true, false, false⟩).tocSurvives =
      true := by
  decide

/-- C9 amended: on every exit path of `create_pdf` — pass-1 font
failure, any raising step (content output, pass-2 checks, ToC output,
merge), or success — the `finally` cleanup attempts to remove exactly
the temporary files that were created; a created temp file survives the
return if and only if its `os.remove` raises an `OSError` (which the
source catches with only a warning).  In particular, whenever the
removals succeed, no temporary file survives. -/
theorem create_pdf_cleanup_every_path :
    ∀ b1 b2 b3 b4 b5 b6 b7 b8 b9 b10 : Bool,
      ((create_pdf_run ⟨b1, b2, b3, b4, b5, b6, b7, b8, b9, b10⟩).contentRemoveAttempted =
          (create_pdf_run ⟨b1, b2, b3, b4, b5, b6, b7, b8, b9, b10⟩).contentCreated ∧
        (create_pdf_run ⟨b1, b2, b3, b4, b5, b6, b7, b8, b9, b10⟩).tocRemoveAttempted =
          (create_pdf_run ⟨b1, b2, b3, b4, b5, b6, b7, b8, b9, b10⟩).tocCreated) ∧
      ((create_pdf_run ⟨b1, b2, b3, b4, b5, b6, b7, b8, b9, b10⟩).contentSurvives =
          ((create_pdf_run ⟨b1, b2, b3, b4, b5, b6, b7, b8, b9, b10⟩).contentCreated && !b9) ∧
        (create_pdf_run ⟨b1, b2, b3, b4, b5, b6, b7, b8, b9, b10⟩).tocSurvives =
          ((create_pdf_run ⟨b1, b2, b3, b4, b5, b6, b7, b8, b9, b10⟩).tocCreated && !b10)) := by
  decide

/-- C10 counterexample: on an outline whose duplicated chapter title has
all its sections parsed before the re-occurrence, the reset empties every
section list and `parse_toc` returns `None` — it does not return a tree
with a single (reset) entry for the duplicated title, as the claim
states. -/
theorem duplicate_chapter_reset_failure :
    chLine "1. A".data = some "A" ∧
    tocLines "1. A\n  1.1. First\n1. A" =
      ["1. A".data, "  1.1. First".data, "1. A".data] ∧
    parse_toc "1. A\n  1.1. First\n1. A" = none := by
  refine ⟨?_, ?_, ?_⟩ <;> decide

/-- C10 amended: when `parse_toc` succeeds, a chapter title produced by
more than one chapter line has exactly one entry, placed at the position
of its first occurrence in chapter order (the key list is the
first-occurrence dedup of all recognized chapter titles), and its
section list is reset at each re-occurrence: it holds exactly the
sections admitted after the last occurrence of the title (up to the next
chapter line), earlier sections being silently discarded.  When the
resets leave the whole tree without sections, `parse_toc` instead
returns failure. -/
theorem parse_toc_duplicate_reset (text : String) (parsed : Toc) (k : String)
    (L1 L2 : List (List Char)) (l : List Char)
    (hsplit : tocLines text = L1 ++ l :: L2)
    (hk : chLine l = some k)
    (hlast : ∀ l2 ∈ L2, chLine l2 ≠ some k)
    (_hdup : ∃ l1 ∈ L1, chLine l1 = some k)
    (hsucc : parse_toc text = some parsed) :
    tocLookup parsed k =
      some ((L2.takeWhile (fun l2 => (chLine l2).isNone)).filterMap secLine) ∧
    ((parsed.map Prod.fst).count k = 1 ∧
    parsed.map Prod.fst = dedupFirst ((tocLines text).filterMap chLine)) := by
  have hp : parsed = parsedChapters text := parse_toc_some text parsed hsucc
  subst hp
  have hkeys : (parsedChapters text).map Prod.fst =
      dedupFirst ((tocLines text).filterMap chLine) := by
    unfold parsedChapters dedupFirst
    rw [foldl_keys]
    simp
  refine ⟨?_, ?_, hkeys⟩
  · unfold parsedChapters
    have hstep : parseTocStep (List.foldl parseTocStep ([], none) L1) l =
        (tocSetEmpty (List.foldl parseTocStep ([], none) L1).1 k, some k) := by
      rw [parseTocStep_eq, hk]
    rw [hsplit, List.foldl_append, List.foldl_cons, hstep]
    simpa using
      foldl_lookup_current L2 _ k [] (tocLookup_setEmpty_self _ k) hlast
  · rw [hkeys]
    have hmem : k ∈ (tocLines text).filterMap chLine := by
      rw [hsplit, List.filterMap_append]
      apply List.mem_append_right
      simp [List.filterMap_cons, hk]
    have hmem2 : k ∈ dedupFirst ((tocLines text).filterMap chLine) := by
      unfold dedupFirst
      rw [mem_dedupFirstAux]
      exact ⟨hmem, by simp⟩
    exact List.count_eq_one_of_mem (nodup_dedupFirstAux _ []) hmem2

/-- C10 amended, witness at a concrete input. -/
theorem parse_toc_duplicate_reset_witness :
    (tocLines "1. A\n  1.1. First\n2. B\n  2.1. X\n1. A\n  1.1. Second\n3. C\n  3.1. Y" =
      ["1. A".data, "  1.1. First".data, "2. B".data, "  2.1. X".data] ++
        "1. A".data :: ["  1.1. Second".data, "3. C".data, "  3.1. Y".data]) ∧
    chLine "1. A".data = some "A" ∧
    (∀ l2 ∈ ["  1.1. Second".data, "3. C".data, "  3.1. Y".data], chLine l2 ≠ some "A") ∧
    (∃ l1 ∈ ["1. A".data, "  1.1. First".data, "2. B".data, "  2.1. X".data],
      chLine l1 = some "A") ∧
    parse_toc "1. A\n  1.1. First\n2. B\n  2.1. X\n1. A\n  1.1. Second\n3. C\n  3.1. Y" =
      some [("A", ["Second"]), ("B", ["X"]), ("C", ["Y"])] ∧
    (tocLookup [("A", ["Second"]), ("B", ["X"]), ("C", ["Y"])] "A" =
      some ((["  1.1. Second".data, "3. C".data, "  3.1. Y".data].takeWhile
        (fun l2 => (chLine l2).isNone)).filterMap secLine) ∧
    ((([("A", ["Second"]), ("B", ["X"]), ("C", ["Y"])] : Toc).map Prod.fst).count "A" = 1 ∧
    ([("A", ["Second"]), ("B", ["X"]), ("C", ["Y"])] : Toc).map Prod.fst =
      dedupFirst ((tocLines
        "1. A\n  1.1. First\n2. B\n  2.1. X\n1. A\n  1.1. Second\n3. C\n  3.1. Y").filterMap chLine))) :=
  ⟨by decide, by decide, by decide, by decide, by decide,
    parse_toc_duplicate_reset
      "1. A\n  1.1. First\n2. B\n  2.1. X\n1. A\n  1.1. Second\n3. C\n  3.1. Y"
      [("A", ["Second"]), ("B", ["X"]), ("C", ["Y"])] "A"
      ["1. A".data, "  1.1. First".data, "2. B".data, "  2.1. X".data]
      ["  1.1. Second".data, "3. C".data, "  3.1. Y".data] "1. A".data
      (by decide) (by decide) (by decide) (by decide) (by decide)⟩

end BookGen
